import Mathlib

/-!
Shallow embedding of the transaction normalization pipeline of
`beancount_no_dnb/mastercard.py` (plus the data model of
`beancount_no_dnb/models.py`), and proofs about the spec's claims.

Conventions of the embedding:
* Python `Decimal` values are modelled by `PyDecimal`: either an exact
  rational, an infinity, or NaN (the three kinds of values the `Decimal`
  constructor can produce).
* A spreadsheet cell value (as produced by openpyxl with
  `data_only=True`) is modelled by `CellValue`: empty (`None`), a text
  cell, a numeric cell (int or float, carried as the exact decimal that
  `Decimal(str(value))` yields), or a date/datetime cell (a datetime is
  truncated to its date by the importer, so both are carried as a `Date`).
  Boolean cells are not modelled.
* Exceptions are modelled with `Except Unit`; `Except.error ()` stands
  for any raised exception.
* The external classifier (`ClassifierMixin.finalize`, from the separate
  `beancount_classifier` package) is modelled as an oracle parameter of
  type `Finalize`; `Except.error ()` models a raising classifier and
  `Except.ok Option.none` models `finalize` returning `None`.
-/

deriving instance DecidableEq for Except

namespace DnbNo

/-- A calendar date, compared lexicographically by (year, month, day)
exactly as Python `datetime.date` comparison does. -/
structure Date where
  year : Nat
  month : Nat
  day : Nat
deriving DecidableEq

/-- `a <= b` for dates: Python's tuple-lexicographic date comparison. -/
def Date.ble (a b : Date) : Bool :=
  if a.year < b.year then true
  else if b.year < a.year then false
  else if a.month < b.month then true
  else if b.month < a.month then false
  else a.day ≤ b.day

/-- `a < b` for dates: Python's tuple-lexicographic date comparison. -/
def Date.blt (a b : Date) : Bool :=
  if a.year < b.year then true
  else if b.year < a.year then false
  else if a.month < b.month then true
  else if b.month < a.month then false
  else a.day < b.day

/-- A value of Python's `decimal.Decimal`: a finite decimal stored, as
in the `decimal` module, as a signed integer coefficient `m` and a
power-of-ten exponent `e` (numeric value `m * 10^e`); or a (signed)
infinity; or NaN.  (Negative zero is collapsed onto zero, and signaling
NaNs and NaN payloads onto `nan`; the pipeline never distinguishes
them.) -/
inductive PyDecimal where
  | num (m : Int) (e : Int)
  | inf (neg : Bool)
  | nan
deriving DecidableEq

/-- The rational value of a finite `Decimal`. -/
def PyDecimal.val : PyDecimal → Option ℚ
  | PyDecimal.num m e => some ((m : ℚ) * (10 : ℚ) ^ e)
  | _ => Option.none

/-- Python unary minus on a `Decimal` value. -/
def PyDecimal.negate : PyDecimal → PyDecimal
  | PyDecimal.num m e => PyDecimal.num (-m) e
  | PyDecimal.inf b => PyDecimal.inf (!b)
  | PyDecimal.nan => PyDecimal.nan

/-- `0 < d` for a `Decimal` value (NaN compares false). -/
def PyDecimal.isPos : PyDecimal → Bool
  | PyDecimal.num m _ => decide (0 < m)
  | PyDecimal.inf b => !b
  | PyDecimal.nan => false

/-- Is the `Decimal` value finite?  pydantic v2 rejects non-finite
`Decimal` field values by default, so `RawTransaction` construction
raises on NaN/infinity. -/
def PyDecimal.isFinite : PyDecimal → Bool
  | PyDecimal.num _ _ => true
  | _ => false

/-- One spreadsheet cell value as read by openpyxl (`data_only=True`). -/
inductive CellValue where
  | empty
  | str (s : String)
  | num (d : PyDecimal)
  | date (d : Date)
deriving DecidableEq

/-- The characters Python `str.strip` removes (ASCII whitespace; the
rarer Unicode space characters are not modelled). -/
def isPySpace (c : Char) : Bool :=
  c = ' ' ∨ c = '\t' ∨ c = '\n' ∨ c = '\r' ∨ c = '\x0b' ∨ c = '\x0c'

/-- Python `s.strip()`. -/
def pyStrip (s : String) : String :=
  String.mk (((s.toList.dropWhile isPySpace).reverse.dropWhile isPySpace).reverse)

/-- Python `s.replace(",", ".")`. -/
def commaToDot (s : String) : String :=
  String.mk (s.toList.map (fun c => if c = ',' then '.' else c))

/-- ASCII lower-casing of one character (Python `str.lower` restricted
to ASCII, which covers every string the importer lower-cases). -/
def asciiLower (c : Char) : Char :=
  if 'A' ≤ c ∧ c ≤ 'Z' then Char.ofNat (c.toNat + 32) else c

/-- Python `s.lower()` on ASCII strings. -/
def lowerStr (s : String) : String :=
  String.mk (s.toList.map asciiLower)

/-- Numeric value of one ASCII digit. -/
def digitVal (c : Char) : Nat := c.toNat - '0'.toNat

/-- Value of a big-endian ASCII digit string. -/
def digitsToNat (l : List Char) : Nat :=
  l.foldl (fun a c => 10 * a + digitVal c) 0

/-- The finite decimal `[sign] ip . fp E e`, stored as the `decimal`
module does: coefficient `int(ip ++ fp)`, exponent `e - len(fp)`. -/
def mkNum (neg : Bool) (ip fp : List Char) (e : Int) : PyDecimal :=
  let m : Int := (digitsToNat (ip ++ fp) : Int)
  PyDecimal.num (if neg then -m else m) (e - (fp.length : Int))

/-- Exponent part of a decimal numeric string: `[sign] digits`. -/
def parseExpPart (l : List Char) : Option Int :=
  match l with
  | '+' :: rest =>
    if rest ≠ [] ∧ rest.all Char.isDigit then some (digitsToNat rest) else Option.none
  | '-' :: rest =>
    if rest ≠ [] ∧ rest.all Char.isDigit then some (-(digitsToNat rest : Int)) else Option.none
  | rest =>
    if rest ≠ [] ∧ rest.all Char.isDigit then some (digitsToNat rest) else Option.none

/-- Finite-number alternative of the decimal numeric string grammar:
`(?=\d|\.\d) \d* (\.\d*)? (E[-+]?\d+)?`. -/
def parseFiniteBody (neg : Bool) (body : List Char) : Option PyDecimal :=
  let s1 := body.span Char.isDigit
  match s1.2 with
  | [] => if s1.1 = [] then Option.none else some (mkNum neg s1.1 [] 0)
  | '.' :: r2 =>
    let s2 := r2.span Char.isDigit
    if s1.1 = [] ∧ s2.1 = [] then Option.none
    else
      match s2.2 with
      | [] => some (mkNum neg s1.1 s2.1 0)
      | c :: r4 =>
        if c = 'e' ∨ c = 'E' then
          match parseExpPart r4 with
          | some e => some (mkNum neg s1.1 s2.1 e)
          | Option.none => Option.none
        else Option.none
  | c :: r2 =>
    if (c = 'e' ∨ c = 'E') ∧ s1.1 ≠ [] then
      match parseExpPart r2 with
      | some e => some (mkNum neg s1.1 [] e)
      | Option.none => Option.none
    else Option.none

/-- Is `lower` (already lower-cased) `nan` followed by digits? -/
def isNanCore (lower : List Char) : Bool :=
  match lower with
  | 'n' :: 'a' :: 'n' :: ds => ds.all Char.isDigit
  | _ => false

/-- Is `lower` (already lower-cased) an `[s]NaN[digits]` body? -/
def isNanBody (lower : List Char) : Bool :=
  match lower with
  | 's' :: rest => isNanCore rest
  | rest => isNanCore rest

/-- The part of a decimal numeric string after the optional sign:
a finite number, an infinity, or a NaN (case-insensitive). -/
def parseNumericBody (neg : Bool) (body : List Char) : Option PyDecimal :=
  let lower := body.map asciiLower
  if lower = "inf".toList ∨ lower = "infinity".toList then some (PyDecimal.inf neg)
  else if isNanBody lower then some PyDecimal.nan
  else parseFiniteBody neg body

/-- Python `Decimal(s)` for a string argument: the decimal numeric
string grammar of the `decimal` module (`\s* [sign] (number | Inf |
[s]NaN digits*) \s*`, case-insensitive).  `Option.none` means the
constructor raises `InvalidOperation`.  (PEP 515 underscore grouping is
not modelled; no input of interest contains underscores.) -/
def parseDecimalString (s : String) : Option PyDecimal :=
  let l := (s.toList.dropWhile isPySpace).reverse.dropWhile isPySpace |>.reverse
  match l with
  | [] => Option.none
  | '-' :: r => parseNumericBody true r
  | '+' :: r => parseNumericBody false r
  | r => parseNumericBody false r

/-- `models.RawTransaction`: one decoded spreadsheet row. -/
structure RawTransaction where
  date : Option Date := Option.none
  description : Option String := Option.none
  foreign_currency : Option String := Option.none
  exchange_rate : Option PyDecimal := Option.none
  credit : Option PyDecimal := Option.none
  debit : Option PyDecimal := Option.none
deriving DecidableEq

/-- `models.ExcelFileData`: all rows decoded from one file. -/
structure ExcelFileData where
  transactions : List RawTransaction := []
  sheet_name : Option String := Option.none
deriving DecidableEq

/-- The six cells of one spreadsheet row that the importer reads
(columns 1-6: Dato, Beløpet gjelder, Valuta, Kurs, Inn, Ut). -/
structure Row where
  dateCell : CellValue := CellValue.empty
  descriptionCell : CellValue := CellValue.empty
  valutaCell : CellValue := CellValue.empty
  kursCell : CellValue := CellValue.empty
  innCell : CellValue := CellValue.empty
  utCell : CellValue := CellValue.empty
deriving DecidableEq

/-- The active worksheet of a loaded workbook: its title, its header
row (row 1), and its data rows (rows 2 .. max_row, in file order). -/
structure Worksheet where
  title : String
  header : Row
  dataRows : List Row

/-- Outcome of `load_workbook` on a file path: either an exception
(missing, corrupt, or otherwise unreadable file) or a workbook. -/
inductive LoadResult where
  | failure
  | book (ws : Worksheet)

/-- `_parse_norwegian_number`: `None` stays `None`; an int/float cell is
converted via `Decimal(str(value))` (exact); a string has whitespace
stripped and commas replaced by periods, an empty result is `None`, and
anything else goes through `Decimal(...)`, which raises on a
non-numeric string; a date/datetime value falls through to
`Decimal(str(value))`, which always raises on the `YYYY-MM-DD[...]`
form `str` produces. -/
def parseNorwegianNumber : CellValue → Except Unit (Option PyDecimal)
  | CellValue.empty => Except.ok Option.none
  | CellValue.num d => Except.ok (some d)
  | CellValue.str s =>
    let cleaned := commaToDot (pyStrip s)
    if cleaned = "" then Except.ok Option.none
    else
      match parseDecimalString cleaned with
      | some d => Except.ok (some d)
      | Option.none => Except.error ()
  | CellValue.date _ => Except.error ()

/-- `description.strip() if description else None`: an empty (`None`)
cell, an empty string, or a numeric zero is falsy and yields `None`;
a non-empty string is stripped; any other truthy non-string value
raises `AttributeError` on `.strip()`. -/
def stripDescription : CellValue → Except Unit (Option String)
  | CellValue.empty => Except.ok Option.none
  | CellValue.str s =>
    if s = "" then Except.ok Option.none else Except.ok (some (pyStrip s))
  | CellValue.num d =>
    match d with
    | PyDecimal.num m _ => if m = 0 then Except.ok Option.none else Except.error ()
    | _ => Except.error ()
  | CellValue.date _ => Except.error ()

/-- `valuta.strip() if isinstance(valuta, str) else None`: every string
cell (even an empty one) is stripped and kept; everything else is
`None`. -/
def stripValuta : CellValue → Option String
  | CellValue.str s => some (pyStrip s)
  | _ => Option.none

/-- The date conversion of `_parse_excel_file`: a date or datetime cell
yields its date; any other non-empty cell leaves the date unset. -/
def decodeDateCell : CellValue → Option Date
  | CellValue.date d => some d
  | _ => Option.none

/-- pydantic validation of `RawTransaction(...)`: the three `Decimal`
fields must be finite (pydantic v2 rejects NaN/infinity by default);
a failure raises `ValidationError`. -/
def validateRaw (rt : RawTransaction) : Except Unit (Option RawTransaction) :=
  if rt.exchange_rate.all PyDecimal.isFinite ∧ rt.credit.all PyDecimal.isFinite
      ∧ rt.debit.all PyDecimal.isFinite then
    Except.ok (some rt)
  else Except.error ()

/-- The per-row body of the loop in `_parse_excel_file`:
`Except.ok Option.none` is the `continue` for an empty row,
`Except.ok (some rt)` appends one record, and `Except.error ()` is an
exception escaping to the whole-file handler. -/
def decodeRow (r : Row) : Except Unit (Option RawTransaction) :=
  if r.dateCell = CellValue.empty ∧ r.descriptionCell = CellValue.empty then
    Except.ok Option.none
  else
    match stripDescription r.descriptionCell with
    | Except.error e => Except.error e
    | Except.ok description =>
      match parseNorwegianNumber r.kursCell with
      | Except.error e => Except.error e
      | Except.ok exchange =>
        match parseNorwegianNumber r.innCell with
        | Except.error e => Except.error e
        | Except.ok credit =>
          match parseNorwegianNumber r.utCell with
          | Except.error e => Except.error e
          | Except.ok debit =>
            validateRaw
              { date := decodeDateCell r.dateCell
                description := description
                foreign_currency := stripValuta r.valutaCell
                exchange_rate := exchange
                credit := credit
                debit := debit }

/-- The data-row loop of `_parse_excel_file`: collects the decoded
records in order, propagating any exception. -/
def parseRows : List Row → Except Unit (List RawTransaction)
  | [] => Except.ok []
  | r :: rs =>
    match decodeRow r with
    | Except.error e => Except.error e
    | Except.ok o =>
      match parseRows rs with
      | Except.error e => Except.error e
      | Except.ok rest =>
        Except.ok (match o with | Option.none => rest | some rt => rt :: rest)

/-- `Importer._parse_excel_file`: any exception while loading or while
decoding the rows is caught and an empty `ExcelFileData()` is returned
instead. -/
def parseExcelFile (file : LoadResult) : ExcelFileData :=
  match file with
  | LoadResult.failure => {}
  | LoadResult.book ws =>
    match parseRows ws.dataRows with
    | Except.error _ => {}
    | Except.ok l => { transactions := l, sheet_name := some ws.title }

/-- Split a character list on `/` (the component split of a POSIX
path). -/
def splitSlash (l : List Char) : List (List Char) :=
  match l with
  | [] => [[]]
  | c :: rest =>
    let r := splitSlash rest
    if c = '/' then [] :: r
    else
      match r with
      | [] => [[c]]
      | h :: t => (c :: h) :: t

/-- `Path(p).name` for a POSIX path: the last path component, with `.`
components and empty components dropped (pathlib normalizes them away). -/
def pathName (p : String) : String :=
  String.mk ((((splitSlash p.toList).filter (fun s => s ≠ [] ∧ s ≠ ['.'])).getLast?).getD [])

/-- Index of the last `.` in a character list, if any. -/
def lastDotIdx (l : List Char) : Option Nat :=
  match l with
  | [] => Option.none
  | c :: rest =>
    match lastDotIdx rest with
    | some i => some (i + 1)
    | Option.none => if c = '.' then some 0 else Option.none

/-- `Path(p).suffix`: the extension of the final component, `""` when
the last dot is absent, leading, or trailing. -/
def pathSuffix (p : String) : String :=
  let cs := (pathName p).toList
  match lastDotIdx cs with
  | Option.none => ""
  | some i => if 0 < i ∧ i + 1 < cs.length then String.mk (cs.drop i) else ""

/-- `EXPECTED_HEADERS` as the check of `_is_dnb_mastercard_file`: the
first six cells of row 1 must equal the six Norwegian labels, in order. -/
def headerMatches (r : Row) : Bool :=
  r.dateCell == CellValue.str "Dato" && r.descriptionCell == CellValue.str "Beløpet gjelder"
    && r.valutaCell == CellValue.str "Valuta" && r.kursCell == CellValue.str "Kurs"
    && r.innCell == CellValue.str "Inn" && r.utCell == CellValue.str "Ut"

/-- `_is_dnb_mastercard_file`: wrong (case-folded) extension fails
before the file is opened; a load failure is caught and yields
`false`; otherwise the header row is compared to `EXPECTED_HEADERS`. -/
def isDnbMastercardFile (path : String) (file : LoadResult) : Bool :=
  if lowerStr (pathSuffix path) ≠ ".xlsx" then false
  else
    match file with
    | LoadResult.failure => false
    | LoadResult.book ws => headerMatches ws.header

/-- `Importer.identify` simply delegates to `_is_dnb_mastercard_file`
(the importer's configuration is not consulted). -/
def identify (path : String) (file : LoadResult) : Bool :=
  isDnbMastercardFile path file

/-- Python `max` over a nonempty list of dates: keep the running
maximum, replacing it only on a strictly greater element. -/
def dateListMax (d : Date) (ds : List Date) : Date :=
  ds.foldl (fun acc x => if Date.blt acc x then x else acc) d

/-- `Importer.date`: the maximum date among all decoded rows that have
one (the full, unfiltered row set), or today's date when none has. -/
def importerDate (file : LoadResult) (today : Date) : Date :=
  match (parseExcelFile file).transactions.filterMap RawTransaction.date with
  | [] => today
  | d :: ds => dateListMax d ds

/-- The importer state relevant to extraction, as set by
`Importer.__init__` from a `DnbMastercardConfig` (the classification
fields live inside the external classifier and are not modelled). -/
structure ImporterConfig where
  account_name : String
  currency : String := "NOK"
  skip_balance_forward : Bool := true
  skip_payments : Bool := false
  flag : String := "*"

/-- `PAYMENT_DESCRIPTION`. -/
def paymentDescription : String := "Innbetaling"

/-- `BALANCE_FORWARD_DESCRIPTION`. -/
def balanceForwardDescription : String := "Skyldig beløp fra forrige faktura"

/-- One posting of a Beancount transaction, as built by `extract`
(`Amount(D(str(amount_decimal)), currency)` round-trips the decimal
value unchanged, so the amount is carried directly). -/
structure Posting where
  account : String
  amount : PyDecimal
  currency : String
deriving DecidableEq

/-- The fields of the `data.Transaction` built by `extract` (metadata
file/line, the `type` metadata entry, date, flag, payee, narration,
postings; tags and links are always the constant empty set). -/
structure Transaction where
  metaFile : String
  metaRow : Nat
  metaType : String
  date : Date
  flag : String
  payee : Option String
  narration : String
  postings : List Posting
deriving DecidableEq

/-- The external `ClassifierMixin.finalize`, as a black-box oracle:
given the built transaction and the raw row it came from, it may raise
(`Except.error ()`), return `None` (`Except.ok Option.none`), or return
a finalized transaction. -/
def Finalize : Type :=
  Transaction → RawTransaction → Except Unit (Option Transaction)

/-- Amount resolution of `extract`: credit (Inn) wins when present and
is used as-is; otherwise a present debit (Ut) is negated; otherwise
there is no resolvable amount. -/
def resolveAmount (raw : RawTransaction) : Option PyDecimal :=
  match raw.credit with
  | some c => some c
  | Option.none =>
    match raw.debit with
    | some b => some (PyDecimal.negate b)
    | Option.none => Option.none

/-- The `type` metadata entry of `extract`: `"CREDIT"` when the row's
credit field is present, `"DEBIT"` otherwise. -/
def txnKind (raw : RawTransaction) : String :=
  match raw.credit with
  | some _ => "CREDIT"
  | Option.none => "DEBIT"

/-- The transaction `extract` hands to `finalize`: source metadata,
kind tag, the row's date, the configured flag, no payee, the (possibly
empty) description as narration, and one primary posting on the
configured account. -/
def buildTxn (cfg : ImporterConfig) (fp : String) (idx : Nat) (raw : RawTransaction)
    (d : Date) (amt : PyDecimal) : Transaction :=
  { metaFile := fp
    metaRow := idx
    metaType := txnKind raw
    date := d
    flag := cfg.flag
    payee := Option.none
    narration := raw.description.getD ""
    postings := [{ account := cfg.account_name, amount := amt, currency := cfg.currency }] }

/-- The body of `extract`'s per-row loop (row `idx`, counted from 1):
skip when the date is unset, when an enabled skip policy matches the
description (`raw_txn.description or ""`), or when no amount resolves;
otherwise build the transaction, run `finalize`, and drop the row when
`finalize` raises or returns `None`. -/
def processRow (cfg : ImporterConfig) (fin : Finalize) (fp : String) (idx : Nat)
    (raw : RawTransaction) : Option Transaction :=
  match raw.date with
  | Option.none => Option.none
  | some d =>
    let description := raw.description.getD ""
    if cfg.skip_balance_forward = true ∧ description = balanceForwardDescription then
      Option.none
    else if cfg.skip_payments = true ∧ description = paymentDescription then
      Option.none
    else
      match resolveAmount raw with
      | Option.none => Option.none
      | some amt =>
        match fin (buildTxn cfg fp idx raw d amt) raw with
        | Except.error _ => Option.none
        | Except.ok o => o

/-- `enumerate(rows, 1)`. -/
def enumFrom (n : Nat) : List RawTransaction → List (Nat × RawTransaction)
  | [] => []
  | a :: as => (n, a) :: enumFrom (n + 1) as

/-- `extract`'s loop over the decoded rows. -/
def extractRows (cfg : ImporterConfig) (fin : Finalize) (fp : String)
    (rows : List RawTransaction) : List Transaction :=
  (enumFrom 1 rows).filterMap (fun p => processRow cfg fin fp p.1 p.2)

/-- `Importer.extract`: parse the file, return `[]` when no rows were
decoded, otherwise process each decoded row in order. -/
def extract (cfg : ImporterConfig) (fin : Finalize) (fp : String)
    (file : LoadResult) : List Transaction :=
  let excel := parseExcelFile file
  if excel.transactions.isEmpty then []
  else extractRows cfg fin fp excel.transactions

/-! ## Helper lemmas -/

theorem Date.ble_iff (a b : Date) :
    a.ble b = true ↔
      (a.year < b.year ∨ (a.year = b.year ∧
        (a.month < b.month ∨ (a.month = b.month ∧ a.day ≤ b.day)))) := by
  unfold Date.ble
  split_ifs <;> simp <;> omega

theorem Date.blt_iff (a b : Date) :
    a.blt b = true ↔
      (a.year < b.year ∨ (a.year = b.year ∧
        (a.month < b.month ∨ (a.month = b.month ∧ a.day < b.day)))) := by
  unfold Date.blt
  split_ifs <;> simp <;> omega

theorem Date.ble_refl (a : Date) : a.ble a = true := by
  rw [Date.ble_iff]; omega

theorem Date.ble_trans {a b c : Date} (h1 : a.ble b = true) (h2 : b.ble c = true) :
    a.ble c = true := by
  rw [Date.ble_iff] at *; omega

theorem Date.blt_imp_ble {a b : Date} (h : a.blt b = true) : a.ble b = true := by
  rw [Date.blt_iff] at h; rw [Date.ble_iff]; omega

theorem Date.ble_of_not_blt {a b : Date} (h : ¬ a.blt b = true) : b.ble a = true := by
  rw [Date.blt_iff] at h; rw [Date.ble_iff]; omega

theorem dateListMax_ble (ds : List Date) :
    ∀ d x, x = d ∨ x ∈ ds → Date.ble x (dateListMax d ds) = true := by
  induction ds with
  | nil =>
    intro d x hx
    rcases hx with h | h
    · subst h; exact Date.ble_refl x
    · cases h
  | cons hd tl ih =>
    intro d x hx
    have hunf : dateListMax d (hd :: tl) = dateListMax (if Date.blt d hd then hd else d) tl :=
      rfl
    rw [hunf]
    rcases hx with h | h
    · subst h
      refine Date.ble_trans ?_ (ih _ _ (Or.inl rfl))
      by_cases hb : Date.blt x hd = true
      · simp only [hb, if_pos]; exact Date.blt_imp_ble hb
      · simp only [hb, if_neg]; exact Date.ble_refl x
    · rcases List.mem_cons.mp h with h | h
      · subst h
        refine Date.ble_trans ?_ (ih _ _ (Or.inl rfl))
        by_cases hb : Date.blt d x = true
        · simp only [hb, if_pos]; exact Date.ble_refl x
        · simp only [hb, if_neg]; exact Date.ble_of_not_blt hb
      · exact ih _ _ (Or.inr h)

theorem dateListMax_mem (ds : List Date) :
    ∀ d, dateListMax d ds = d ∨ dateListMax d ds ∈ ds := by
  induction ds with
  | nil => intro d; exact Or.inl rfl
  | cons hd tl ih =>
    intro d
    have hunf : dateListMax d (hd :: tl) = dateListMax (if Date.blt d hd then hd else d) tl :=
      rfl
    rcases ih (if Date.blt d hd then hd else d) with h | h
    · rw [hunf, h]
      by_cases hb : Date.blt d hd = true
      · simp only [hb, if_pos]; exact Or.inr (List.mem_cons_self hd tl)
      · simp only [hb, if_neg]; exact Or.inl rfl
    · rw [hunf]
      exact Or.inr (List.mem_cons_of_mem hd h)

theorem validateRaw_ne_ok_none (rt : RawTransaction) :
    validateRaw rt ≠ Except.ok Option.none := by
  unfold validateRaw
  split_ifs <;> simp

theorem validateRaw_ok {rt rt' : RawTransaction}
    (h : validateRaw rt = Except.ok (some rt')) : rt' = rt := by
  unfold validateRaw at h
  split_ifs at h
  · exact (Option.some_inj.mp (Except.ok.inj h)).symm

theorem parseRows_ok {rows : List Row} {l : List RawTransaction}
    (h : parseRows rows = Except.ok l) :
    l = rows.filterMap (fun r =>
      match decodeRow r with
      | Except.ok o => o
      | Except.error _ => Option.none) := by
  induction rows generalizing l with
  | nil =>
    simp only [parseRows] at h
    simp [← Except.ok.inj h]
  | cons r rs ih =>
    simp only [parseRows] at h
    cases hr : decodeRow r with
    | error e => rw [hr] at h; cases h
    | ok o =>
      rw [hr] at h
      cases hrs : parseRows rs with
      | error e => rw [hrs] at h; cases h
      | ok rest =>
        rw [hrs] at h
        have hl := Except.ok.inj h
        cases o with
        | none => simp [List.filterMap_cons, hr, ← hl, ih hrs]
        | some rt => simp [List.filterMap_cons, hr, ← hl, ih hrs]

theorem parseRows_error_of_mem {rows : List Row} {r : Row}
    (hmem : r ∈ rows) (herr : decodeRow r = Except.error ()) :
    parseRows rows = Except.error () := by
  induction rows with
  | nil => cases hmem
  | cons hd tl ih =>
    rcases List.mem_cons.mp hmem with h | h
    · subst h
      simp only [parseRows, herr]
    · simp only [parseRows]
      cases hhd : decodeRow hd with
      | error e => cases e; rfl
      | ok o => rw [ih h]

theorem buildTxn_metaRow (cfg : ImporterConfig) (fp : String) (idx : Nat)
    (raw : RawTransaction) (d : Date) (amt : PyDecimal) :
    (buildTxn cfg fp idx raw d amt).metaRow = idx := rfl

/-! ## Claim C3: the file fingerprint check -/

/-- C3: `identify` returns `true` iff the path's (case-folded)
extension is `.xlsx` and the workbook loads with its first six header
cells equal, in order, to `("Dato", "Beløpet gjelder", "Valuta",
"Kurs", "Inn", "Ut")`; in particular a load failure yields `false`
(the exception is caught, so the check is a total Boolean function and
never propagates an error to the caller). -/
theorem identify_fingerprint_iff (path : String) (file : LoadResult) :
    identify path file = true ↔
      (lowerStr (pathSuffix path) = ".xlsx" ∧
        ∃ ws, file = LoadResult.book ws ∧
          ws.header.dateCell = CellValue.str "Dato" ∧
          ws.header.descriptionCell = CellValue.str "Beløpet gjelder" ∧
          ws.header.valutaCell = CellValue.str "Valuta" ∧
          ws.header.kursCell = CellValue.str "Kurs" ∧
          ws.header.innCell = CellValue.str "Inn" ∧
          ws.header.utCell = CellValue.str "Ut") := by
  cases file with
  | failure =>
    simp only [identify, isDnbMastercardFile]
    constructor
    · intro h
      rw [ite_self] at h
      exact Bool.noConfusion h
    · rintro ⟨-, ws, hws, -⟩; cases hws
  | book ws =>
    simp only [identify, isDnbMastercardFile]
    by_cases hs : lowerStr (pathSuffix path) = ".xlsx"
    · rw [if_neg (by simp [hs])]
      unfold headerMatches
      simp only [Bool.and_eq_true, beq_iff_eq]
      constructor
      · rintro ⟨⟨⟨⟨⟨h1, h2⟩, h3⟩, h4⟩, h5⟩, h6⟩
        exact ⟨hs, ws, rfl, h1, h2, h3, h4, h5, h6⟩
      · rintro ⟨-, ws', hws, h1, h2, h3, h4, h5, h6⟩
        cases hws
        exact ⟨⟨⟨⟨⟨h1, h2⟩, h3⟩, h4⟩, h5⟩, h6⟩
    · rw [if_pos (by simp [hs])]
      constructor
      · intro h; exact Bool.noConfusion h
      · rintro ⟨h, -⟩; exact absurd h hs

/-! ## Claim C5: the reporting-date derivation -/

/-- C5: `Importer.date` returns the maximum date among all decoded
rows that have one — computed over the unfiltered row set, before any
skip policy is applied (the function consults no skip flag at all) —
and today's date when no decoded row has a date. -/
theorem date_derivation (file : LoadResult) (today : Date) :
    ((parseExcelFile file).transactions.filterMap RawTransaction.date = [] →
      importerDate file today = today) ∧
    (∀ d, d ∈ (parseExcelFile file).transactions.filterMap RawTransaction.date →
      Date.ble d (importerDate file today) = true) ∧
    ((parseExcelFile file).transactions.filterMap RawTransaction.date ≠ [] →
      importerDate file today ∈
        (parseExcelFile file).transactions.filterMap RawTransaction.date) := by
  unfold importerDate
  cases hds : (parseExcelFile file).transactions.filterMap RawTransaction.date with
  | nil => exact ⟨fun _ => rfl, by simp, fun h => absurd rfl h⟩
  | cons d ds =>
    refine ⟨fun h => List.noConfusion h, ?_, fun _ => ?_⟩
    · intro x hx
      exact dateListMax_ble ds d x (List.mem_cons.mp hx)
    · exact List.mem_cons.mpr (dateListMax_mem ds d)

/-- The spec's date-derivation example file: rows dated 2025-10-24,
2025-10-25 (a payment) and 2025-11-10 (a balance-forward row that the
default skip policy excludes from `extract`'s output). -/
def c5File : LoadResult :=
  LoadResult.book
    { title := "transaksjonsliste"
      header := {}
      dataRows :=
        [{ dateCell := CellValue.date ⟨2025, 10, 24⟩,
           descriptionCell := CellValue.str "REMA 1000 OSLO, Oslo",
           utCell := CellValue.num (PyDecimal.num 1505 (-1)) },
         { dateCell := CellValue.date ⟨2025, 10, 25⟩,
           descriptionCell := CellValue.str "Innbetaling",
           innCell := CellValue.num (PyDecimal.num 5000 0) },
         { dateCell := CellValue.date ⟨2025, 11, 10⟩,
           descriptionCell := CellValue.str "Skyldig beløp fra forrige faktura",
           utCell := CellValue.num (PyDecimal.num 5000 0) }] }

/-- Witness for C5: on the example file the derived date is the
balance-forward row's 2025-11-10 even though that row is excluded from
`extract`'s output. -/
theorem date_derivation_witness :
    Date.ble ⟨2025, 10, 24⟩ (importerDate c5File ⟨2026, 1, 1⟩) = true ∧
    importerDate c5File ⟨2026, 1, 1⟩ ∈
      (parseExcelFile c5File).transactions.filterMap RawTransaction.date ∧
    importerDate c5File ⟨2026, 1, 1⟩ = ⟨2025, 11, 10⟩ :=
  ⟨(date_derivation c5File ⟨2026, 1, 1⟩).2.1 ⟨2025, 10, 24⟩ (by decide),
   (date_derivation c5File ⟨2026, 1, 1⟩).2.2 (by decide),
   by decide⟩

/-! ## Concrete fixtures shared by witnesses -/

/-- A default-configured importer (as `DnbMastercardConfig` defaults:
NOK, skip balance forward, keep payments, flag `*`). -/
def cfg0 : ImporterConfig := { account_name := "Liabilities:CreditCard:DNB" }

/-- A classifier oracle that keeps every transaction unchanged. -/
def finOk : Finalize := fun t _ => Except.ok (some t)

/-! ## Claim C1: sign resolution of `extract` -/

/-- A decoded row whose credit (Inn) field holds a negative value. -/
def c1Raw : RawTransaction :=
  { date := some ⟨2025, 10, 24⟩
    description := some "Refusjon"
    credit := some (PyDecimal.num (-5) 0) }

/-- Counterexample to C1's "any row with a credit value present always
resolves to a positive signed amount": with credit = -5 the resolved
amount is -5, which is not positive (the code copies the credit value
verbatim, with no sign check). -/
theorem credit_not_always_positive_cex :
    c1Raw.credit = some (PyDecimal.num (-5) 0) ∧
    resolveAmount c1Raw = some (PyDecimal.num (-5) 0) ∧
    PyDecimal.isPos (PyDecimal.num (-5) 0) = false := by decide

/-- C1 amended: if the row's credit field is present the resolved
amount equals the credit value itself — so it is positive exactly when
the credit value is positive, not unconditionally — and the kind
metadata is CREDIT (even when debit is also present); else a present
debit resolves to its negation with kind DEBIT; else the row is
omitted from output. -/
theorem amount_resolution (raw : RawTransaction) :
    (∀ c, raw.credit = some c → resolveAmount raw = some c ∧ txnKind raw = "CREDIT") ∧
    (raw.credit = Option.none → ∀ b, raw.debit = some b →
      resolveAmount raw = some (PyDecimal.negate b) ∧ txnKind raw = "DEBIT") ∧
    (raw.credit = Option.none → raw.debit = Option.none →
      ∀ cfg fin fp idx, processRow cfg fin fp idx raw = Option.none) := by
  refine ⟨?_, ?_, ?_⟩
  · intro c hc
    unfold resolveAmount txnKind
    rw [hc]
    exact ⟨rfl, rfl⟩
  · intro hc b hb
    unfold resolveAmount txnKind
    rw [hc, hb]
    exact ⟨rfl, rfl⟩
  · intro hc hb cfg fin fp idx
    have hra : resolveAmount raw = Option.none := by
      unfold resolveAmount; rw [hc, hb]
    unfold processRow
    cases hd : raw.date with
    | none => rfl
    | some d =>
      simp [hra]

/-- Witness for the amended C1, at rows carrying a credit of 50 with a
debit also present, only a debit of 3, and no amount at all. -/
theorem amount_resolution_witness :
    (resolveAmount { credit := some (PyDecimal.num 50 0), debit := some (PyDecimal.num 3 0) } =
        some (PyDecimal.num 50 0) ∧
      txnKind { credit := some (PyDecimal.num 50 0), debit := some (PyDecimal.num 3 0) } =
        "CREDIT") ∧
    (resolveAmount { debit := some (PyDecimal.num 3 0) } =
        some (PyDecimal.negate (PyDecimal.num 3 0)) ∧
      txnKind { debit := some (PyDecimal.num 3 0) } = "DEBIT") ∧
    processRow cfg0 finOk "f" 1 { date := some ⟨2025, 1, 1⟩ } = Option.none :=
  ⟨(amount_resolution _).1 (PyDecimal.num 50 0) rfl,
   (amount_resolution { debit := some (PyDecimal.num 3 0) }).2.1 rfl (PyDecimal.num 3 0) rfl,
   (amount_resolution { date := some ⟨2025, 1, 1⟩ }).2.2 rfl rfl cfg0 finOk "f" 1⟩

/-! ## Claim C8: the numeric-field parser -/

/-- C8: `_parse_norwegian_number` maps an unset cell, an empty string
and a whitespace-only string to unset (never to zero); converts a
numeric-typed cell directly to its exact decimal value; and accepts a
comma as decimal separator: `"150,50"` parses to the decimal 150.50
(coefficient 15050, exponent -2, value 301/2). -/
theorem numeric_field_parsing :
    parseNorwegianNumber CellValue.empty = Except.ok Option.none ∧
    (∀ s, pyStrip s = "" → parseNorwegianNumber (CellValue.str s) = Except.ok Option.none) ∧
    (∀ d, parseNorwegianNumber (CellValue.num d) = Except.ok (some d)) ∧
    parseNorwegianNumber (CellValue.str "150,50") =
      Except.ok (some (PyDecimal.num 15050 (-2))) ∧
    (PyDecimal.num 15050 (-2)).val = some (301 / 2 : ℚ) := by
  refine ⟨rfl, ?_, fun d => rfl, by decide, ?_⟩
  · intro s hs
    simp only [parseNorwegianNumber, hs]
    rfl
  · simp only [PyDecimal.val, Option.some_inj]
    norm_num

/-- Witness for C8 at the whitespace-only cell `"  "`. -/
theorem numeric_field_parsing_witness :
    parseNorwegianNumber (CellValue.str "  ") = Except.ok Option.none :=
  numeric_field_parsing.2.1 "  " (by decide)

/-! ## Claim C7: text-field normalization -/

/-- A data row whose description cell holds only whitespace. -/
def c7Row : Row := { descriptionCell := CellValue.str "   " }

/-- Counterexample to C7's "a cell containing only whitespace yields
an unset field, never an empty-string field": the truthiness check
`if description` sees the untrimmed (truthy) string, so a
whitespace-only description decodes to the empty string, not to unset;
likewise an empty-string Valuta cell stays an empty string. -/
theorem whitespace_description_cex :
    decodeRow c7Row = Except.ok (some { description := some "" }) ∧
    stripValuta (CellValue.str "") = some "" ∧
    (some "" : Option String) ≠ Option.none := by
  refine ⟨by decide, by decide, by decide⟩

/-- C7 amended: the decoded description is the trimmed cell text, with
an unset or empty-string cell (but not a whitespace-only one, which
trims to the empty string) normalized to unset; the decoded foreign
currency is the trimmed cell text of any string cell (an empty string
stays an empty string) and unset for any non-string cell; and every
decoded record's fields come from exactly these normalizations. -/
theorem text_normalization (s : String) :
    stripDescription CellValue.empty = Except.ok Option.none ∧
    stripDescription (CellValue.str "") = Except.ok Option.none ∧
    (s ≠ "" → stripDescription (CellValue.str s) = Except.ok (some (pyStrip s))) ∧
    stripValuta (CellValue.str s) = some (pyStrip s) ∧
    (∀ c, (∀ t, c ≠ CellValue.str t) → stripValuta c = Option.none) ∧
    (∀ r rt, decodeRow r = Except.ok (some rt) →
      rt.description = (match stripDescription r.descriptionCell with
        | Except.ok o => o
        | Except.error _ => Option.none) ∧
      rt.foreign_currency = stripValuta r.valutaCell) := by
  refine ⟨rfl, rfl, ?_, rfl, ?_, ?_⟩
  · intro hs
    simp only [stripDescription, if_neg hs]
  · intro c hc
    cases c with
    | empty => rfl
    | str t => exact absurd rfl (hc t)
    | num d => rfl
    | date d => rfl
  · intro r rt h
    unfold decodeRow at h
    split_ifs at h with hemp
    · simp at h
    · cases h1 : stripDescription r.descriptionCell with
      | error e => rw [h1] at h; cases h
      | ok dsc =>
        rw [h1] at h
        cases h2 : parseNorwegianNumber r.kursCell with
        | error e => rw [h2] at h; cases h
        | ok ex =>
          rw [h2] at h
          cases h3 : parseNorwegianNumber r.innCell with
          | error e => rw [h3] at h; cases h
          | ok cr =>
            rw [h3] at h
            cases h4 : parseNorwegianNumber r.utCell with
            | error e => rw [h4] at h; cases h
            | ok db =>
              rw [h4] at h
              have hrt := validateRaw_ok h
              subst hrt
              exact ⟨rfl, rfl⟩

/-- Witness for the amended C7 at the whitespace-only string and the
row `c7Row`. -/
theorem text_normalization_witness :
    stripDescription (CellValue.str "   ") = Except.ok (some (pyStrip "   ")) ∧
    { description := some "" : RawTransaction }.description =
      (match stripDescription c7Row.descriptionCell with
        | Except.ok o => o
        | Except.error _ => Option.none) :=
  ⟨(text_normalization "   ").2.2.1 (by decide),
   ((text_normalization "").2.2.2.2.2 c7Row { description := some "" } (by decide)).1⟩

/-! ## Claim C6: which rows contribute a record -/

/-- A data row with both date and description present but a malformed
Inn (credit) cell. -/
def c6Row : Row :=
  { dateCell := CellValue.date ⟨2025, 10, 24⟩
    descriptionCell := CellValue.str "HAR DATO"
    innCell := CellValue.str "5O,00" }

/-- Counterexample to C6's "if and only if": `c6Row` has a non-empty
date cell and a non-empty description cell, yet it contributes no
record — its malformed Inn cell makes `Decimal` raise, the exception
is caught at file level, and the decoder returns zero records. -/
theorem row_record_iff_cex :
    ¬(c6Row.dateCell = CellValue.empty ∧ c6Row.descriptionCell = CellValue.empty) ∧
    decodeRow c6Row = Except.error () ∧
    (parseExcelFile (LoadResult.book
      { title := "t", header := {}, dataRows := [c6Row] })).transactions = [] := by
  refine ⟨by decide, by decide, by decide⟩

/-- C6 amended: a data row is *silently skipped* (decodes to no record
without error) iff both its date and description cells are empty; and
whenever the decoder completes without an exception, each non-skipped
row contributes exactly one record, in order.  (A row with an
unparseable numeric string or wrong-typed text cell instead raises,
which empties the whole file's result — see C2.) -/
theorem row_record_iff (r : Row) :
    (decodeRow r = Except.ok Option.none ↔
      (r.dateCell = CellValue.empty ∧ r.descriptionCell = CellValue.empty)) ∧
    (∀ rows l, parseRows rows = Except.ok l →
      l = rows.filterMap (fun row =>
        match decodeRow row with
        | Except.ok o => o
        | Except.error _ => Option.none)) := by
  constructor
  · constructor
    · intro h
      by_contra hemp
      unfold decodeRow at h
      rw [if_neg hemp] at h
      cases h1 : stripDescription r.descriptionCell with
      | error e => rw [h1] at h; cases h
      | ok dsc =>
        rw [h1] at h
        cases h2 : parseNorwegianNumber r.kursCell with
        | error e => rw [h2] at h; cases h
        | ok ex =>
          rw [h2] at h
          cases h3 : parseNorwegianNumber r.innCell with
          | error e => rw [h3] at h; cases h
          | ok cr =>
            rw [h3] at h
            cases h4 : parseNorwegianNumber r.utCell with
            | error e => rw [h4] at h; cases h
            | ok db =>
              rw [h4] at h
              exact validateRaw_ne_ok_none _ h
    · intro hemp
      unfold decodeRow
      rw [if_pos hemp]
  · intro rows l h
    exact parseRows_ok h

/-- The two-row fixture for the C6 witness: one all-empty row and one
dated debit row. -/
def c6Rows : List Row :=
  [{}, { dateCell := CellValue.date ⟨2025, 10, 24⟩,
         descriptionCell := CellValue.str "TEST MERCHANT",
         utCell := CellValue.num (PyDecimal.num 100 0) }]

/-- The single record the non-empty row of `c6Rows` decodes to. -/
def c6Record : RawTransaction :=
  { date := some ⟨2025, 10, 24⟩, description := some "TEST MERCHANT",
    debit := some (PyDecimal.num 100 0) }

/-- Witness for the amended C6: the all-empty row is silently skipped,
and on `c6Rows` a successful parse yields exactly the record of the
non-empty row. -/
theorem row_record_iff_witness :
    decodeRow {} = Except.ok Option.none ∧
    [c6Record] = c6Rows.filterMap
      (fun row =>
        match decodeRow row with
        | Except.ok o => o
        | Except.error _ => Option.none) :=
  ⟨(row_record_iff {}).1.mpr (by decide),
   (row_record_iff {}).2 c6Rows [c6Record] (by decide)⟩

/-! ## Claim C2: malformed numeric cells -/

/-- A data row whose Kurs (exchange-rate) cell is a non-numeric string. -/
def c2Row : Row :=
  { dateCell := CellValue.date ⟨2025, 10, 24⟩
    descriptionCell := CellValue.str "TEST MERCHANT"
    kursCell := CellValue.str "ikke et tall"
    utCell := CellValue.num (PyDecimal.num 100 0) }

/-- A worksheet with one well-formed row followed by `c2Row`. -/
def c2Ws : Worksheet :=
  { title := "transaksjonsliste"
    header := {}
    dataRows :=
      [{ dateCell := CellValue.date ⟨2025, 10, 23⟩,
         descriptionCell := CellValue.str "OK RAD",
         utCell := CellValue.num (PyDecimal.num 50 0) },
       c2Row] }

/-- Counterexample to C2: a malformed Kurs string makes the `Decimal`
constructor raise; the exception is only caught by the whole-file
handler, so the row produces no record — and every other row of the
file is dropped too (the decoder returns an empty `ExcelFileData()`),
the opposite of "never aborts the row (nor any other row of the
file)". -/
theorem malformed_number_cex :
    parseNorwegianNumber (CellValue.str "ikke et tall") = Except.error () ∧
    decodeRow c2Row = Except.error () ∧
    parseExcelFile (LoadResult.book c2Ws) =
      { transactions := [], sheet_name := Option.none } := by
  refine ⟨by decide, by decide, by decide⟩

/-- C2 amended: a data row (other than an entirely empty one) with a
string cell in the exchange-rate, inflow or outflow column on which
the number parser raises makes the whole decode raise; the file-level
handler then returns an empty result, so the row produces no record
and neither does any other row of the same file. -/
theorem malformed_number_aborts (r : Row) (s : String)
    (hcell : r.kursCell = CellValue.str s ∨ r.innCell = CellValue.str s ∨
      r.utCell = CellValue.str s)
    (hbad : parseNorwegianNumber (CellValue.str s) = Except.error ())
    (hrow : ¬(r.dateCell = CellValue.empty ∧ r.descriptionCell = CellValue.empty)) :
    decodeRow r = Except.error () ∧
    ∀ ws, r ∈ ws.dataRows →
      parseExcelFile (LoadResult.book ws) =
        { transactions := [], sheet_name := Option.none } := by
  have herr : decodeRow r = Except.error () := by
    unfold decodeRow
    rw [if_neg hrow]
    cases h1 : stripDescription r.descriptionCell with
    | error e => cases e; rfl
    | ok dsc =>
      rcases hcell with hk | hi | hu
      · rw [hk, hbad]
      · cases h2 : parseNorwegianNumber r.kursCell with
        | error e => cases e; rfl
        | ok ex => rw [hi, hbad]
      · cases h2 : parseNorwegianNumber r.kursCell with
        | error e => cases e; rfl
        | ok ex =>
          cases h3 : parseNorwegianNumber r.innCell with
          | error e => cases e; rfl
          | ok cr => rw [hu, hbad]
  refine ⟨herr, fun ws hmem => ?_⟩
  simp only [parseExcelFile, parseRows_error_of_mem hmem herr]

/-- Witness for the amended C2, at a row whose Ut (outflow) cell holds
the malformed string `"1..5"`. -/
theorem malformed_number_aborts_witness :
    decodeRow { dateCell := CellValue.date ⟨2025, 1, 2⟩, utCell := CellValue.str "1..5" } =
      Except.error () ∧
    parseExcelFile (LoadResult.book
      { title := "t", header := {},
        dataRows := [{ dateCell := CellValue.date ⟨2025, 1, 2⟩,
                       utCell := CellValue.str "1..5" }] }) =
      { transactions := [], sheet_name := Option.none } :=
  ⟨(malformed_number_aborts
      { dateCell := CellValue.date ⟨2025, 1, 2⟩, utCell := CellValue.str "1..5" }
      "1..5" (Or.inr (Or.inr rfl)) (by decide) (by decide)).1,
   (malformed_number_aborts
      { dateCell := CellValue.date ⟨2025, 1, 2⟩, utCell := CellValue.str "1..5" }
      "1..5" (Or.inr (Or.inr rfl)) (by decide) (by decide)).2
     { title := "t", header := {},
       dataRows := [{ dateCell := CellValue.date ⟨2025, 1, 2⟩,
                      utCell := CellValue.str "1..5" }] }
     (by decide)⟩

/-! ## Claim C4: the default skip policy and exact label matching -/

/-- C4: under any configuration with `skip_balance_forward = true` and
`skip_payments = false` (the defaults), a row whose (possibly empty)
description equals the balance-forward label contributes nothing to
the output; and any dated row with a resolvable amount whose
description is *not* exactly that label — in particular the payment
label, or any case/whitespace/superstring variant of either label — is
processed and emitted whenever the classifier keeps it.  The label
comparison is plain string equality against the already-trimmed
description, so it is exact, case-sensitive and whitespace-sensitive. -/
theorem default_skip_policy (cfg : ImporterConfig) (fin : Finalize) (fp : String)
    (idx : Nat) (raw : RawTransaction)
    (hbf : cfg.skip_balance_forward = true) (hsp : cfg.skip_payments = false) :
    (raw.description.getD "" = balanceForwardDescription →
      processRow cfg fin fp idx raw = Option.none) ∧
    (∀ d amt t, raw.date = some d →
      raw.description.getD "" ≠ balanceForwardDescription →
      resolveAmount raw = some amt →
      fin (buildTxn cfg fp idx raw d amt) raw = Except.ok (some t) →
      processRow cfg fin fp idx raw = some t) ∧
    (∀ d amt t, raw.date = some d →
      raw.description = some paymentDescription →
      resolveAmount raw = some amt →
      fin (buildTxn cfg fp idx raw d amt) raw = Except.ok (some t) →
      processRow cfg fin fp idx raw = some t) := by
  have hmain : ∀ d amt t, raw.date = some d →
      raw.description.getD "" ≠ balanceForwardDescription →
      resolveAmount raw = some amt →
      fin (buildTxn cfg fp idx raw d amt) raw = Except.ok (some t) →
      processRow cfg fin fp idx raw = some t := by
    intro d amt t hd hdesc hamt hfin
    unfold processRow
    rw [hd]
    simp only []
    rw [if_neg (fun hb => hdesc hb.2), if_neg (fun hp => by rw [hsp] at hp; cases hp.1),
      hamt]
    show (match fin (buildTxn cfg fp idx raw d amt) raw with
      | Except.error _ => Option.none
      | Except.ok o => o) = some t
    rw [hfin]
  refine ⟨?_, hmain, ?_⟩
  · intro hdesc
    unfold processRow
    cases hd : raw.date with
    | none => rfl
    | some d =>
      simp only []
      rw [if_pos ⟨hbf, hdesc⟩]
  · intro d amt t hd hdesc hamt hfin
    refine hmain d amt t hd ?_ hamt hfin
    rw [hdesc]
    decide

/-- The balance-forward row for the C4 witness. -/
def c4RawBal : RawTransaction :=
  { date := some ⟨2025, 11, 10⟩
    description := some "Skyldig beløp fra forrige faktura"
    debit := some (PyDecimal.num 5000 0) }

/-- The payment row for the C4 witness. -/
def c4RawPay : RawTransaction :=
  { date := some ⟨2025, 10, 25⟩
    description := some "Innbetaling"
    credit := some (PyDecimal.num 5000 0) }

/-- A row whose description strictly contains the balance-forward
label (trailing text), for the exact-match part of the C4 witness. -/
def c4RawNear : RawTransaction :=
  { date := some ⟨2025, 11, 11⟩
    description := some "Skyldig beløp fra forrige faktura X"
    debit := some (PyDecimal.num 1 0) }

/-- Witness for C4 under the default configuration: the
balance-forward row is dropped, the payment row is emitted, and a
superstring of the balance-forward label is emitted (matching is not
substring-based). -/
theorem default_skip_policy_witness :
    processRow cfg0 finOk "f" 1 c4RawBal = Option.none ∧
    processRow cfg0 finOk "f" 2 c4RawPay =
      some (buildTxn cfg0 "f" 2 c4RawPay ⟨2025, 10, 25⟩ (PyDecimal.num 5000 0)) ∧
    processRow cfg0 finOk "f" 3 c4RawNear =
      some (buildTxn cfg0 "f" 3 c4RawNear ⟨2025, 11, 11⟩
        (PyDecimal.negate (PyDecimal.num 1 0))) :=
  ⟨(default_skip_policy cfg0 finOk "f" 1 c4RawBal rfl rfl).1 (by decide),
   (default_skip_policy cfg0 finOk "f" 2 c4RawPay rfl rfl).2.2
     ⟨2025, 10, 25⟩ (PyDecimal.num 5000 0) _ rfl rfl rfl rfl,
   (default_skip_policy cfg0 finOk "f" 3 c4RawNear rfl rfl).2.1
     ⟨2025, 11, 11⟩ (PyDecimal.negate (PyDecimal.num 1 0)) _ rfl (by decide) rfl rfl⟩

/-! ## Claim C10: rows with an unset description -/

/-- C10: a dated row with a resolvable amount but an unset description
is still emitted: the description defaults to the empty string, which
matches neither skip label (they are non-empty), and becomes the
transaction's narration. -/
theorem empty_description_emitted (cfg : ImporterConfig) (fin : Finalize) (fp : String)
    (idx : Nat) (raw : RawTransaction) (d : Date) (amt : PyDecimal)
    (hd : raw.date = some d) (hdesc : raw.description = Option.none)
    (hamt : resolveAmount raw = some amt) :
    (buildTxn cfg fp idx raw d amt).narration = "" ∧
    (∀ t, fin (buildTxn cfg fp idx raw d amt) raw = Except.ok (some t) →
      processRow cfg fin fp idx raw = some t) := by
  have hget : raw.description.getD "" = "" := by rw [hdesc]; rfl
  constructor
  · show raw.description.getD "" = ""
    exact hget
  · intro t hfin
    unfold processRow
    rw [hd]
    simp only []
    rw [if_neg (fun hb => by rw [hget] at hb; exact absurd hb.2 (by decide)),
      if_neg (fun hp => by rw [hget] at hp; exact absurd hp.2 (by decide)),
      hamt]
    show (match fin (buildTxn cfg fp idx raw d amt) raw with
      | Except.error _ => Option.none
      | Except.ok o => o) = some t
    rw [hfin]

/-- The description-less debit row for the C10 witness. -/
def c10Raw : RawTransaction :=
  { date := some ⟨2025, 10, 26⟩
    debit := some (PyDecimal.num 75 0) }

/-- Witness for C10: the description-less row is emitted with
narration `""` even with both skip policies enabled. -/
theorem empty_description_emitted_witness :
    (buildTxn { account_name := "L", skip_payments := true } "f" 4 c10Raw ⟨2025, 10, 26⟩
      (PyDecimal.negate (PyDecimal.num 75 0))).narration = "" ∧
    processRow { account_name := "L", skip_payments := true } finOk "f" 4 c10Raw =
      some (buildTxn { account_name := "L", skip_payments := true } "f" 4 c10Raw
        ⟨2025, 10, 26⟩ (PyDecimal.negate (PyDecimal.num 75 0))) :=
  ⟨(empty_description_emitted { account_name := "L", skip_payments := true } finOk "f" 4
      c10Raw ⟨2025, 10, 26⟩ (PyDecimal.negate (PyDecimal.num 75 0)) rfl rfl rfl).1,
   (empty_description_emitted { account_name := "L", skip_payments := true } finOk "f" 4
      c10Raw ⟨2025, 10, 26⟩ (PyDecimal.negate (PyDecimal.num 75 0)) rfl rfl rfl).2 _ rfl⟩

/-! ## Claim C9: partial-failure isolation in `extract` -/

theorem processRow_fin_congr (cfg : ImporterConfig) (fin fin2 : Finalize) (fp : String)
    (idx : Nat) (raw : RawTransaction)
    (h : ∀ t raw', t.metaRow = idx → fin2 t raw' = fin t raw') :
    processRow cfg fin2 fp idx raw = processRow cfg fin fp idx raw := by
  unfold processRow
  cases hd : raw.date with
  | none => rfl
  | some d =>
    simp only []
    split_ifs with h1 h2
    · rfl
    · rfl
    · cases hra : resolveAmount raw with
      | none => rfl
      | some amt =>
        show (match fin2 (buildTxn cfg fp idx raw d amt) raw with
            | Except.error _ => Option.none
            | Except.ok o => o) =
          (match fin (buildTxn cfg fp idx raw d amt) raw with
            | Except.error _ => Option.none
            | Except.ok o => o)
        rw [h (buildTxn cfg fp idx raw d amt) raw rfl]

theorem processRow_fin_err (cfg : ImporterConfig) (fin2 : Finalize) (fp : String)
    (idx : Nat) (raw : RawTransaction)
    (h : ∀ t raw', t.metaRow = idx → fin2 t raw' = Except.error ()) :
    processRow cfg fin2 fp idx raw = Option.none := by
  unfold processRow
  cases hd : raw.date with
  | none => rfl
  | some d =>
    simp only []
    split_ifs with h1 h2
    · rfl
    · rfl
    · cases hra : resolveAmount raw with
      | none => rfl
      | some amt =>
        show (match fin2 (buildTxn cfg fp idx raw d amt) raw with
            | Except.error _ => Option.none
            | Except.ok o => o) = Option.none
        rw [h (buildTxn cfg fp idx raw d amt) raw rfl]

/-- C9: if the classifier (or the record construction it wraps) raises
on the rows at index `k` and behaves as `fin` everywhere else, then
`extract` emits exactly what row-by-row processing under `fin` emits
with row `k` suppressed: the failing row alone is dropped and every
other row's output is unaffected (one bad row never aborts the file). -/
theorem failure_isolation (cfg : ImporterConfig) (fin fin2 : Finalize) (fp : String)
    (file : LoadResult) (k : Nat)
    (hagree : ∀ t raw, t.metaRow ≠ k → fin2 t raw = fin t raw)
    (herr : ∀ t raw, t.metaRow = k → fin2 t raw = Except.error ()) :
    extract cfg fin2 fp file =
      (enumFrom 1 (parseExcelFile file).transactions).filterMap
        (fun p => if p.1 = k then Option.none else processRow cfg fin fp p.1 p.2) := by
  have hpoint : ∀ p : Nat × RawTransaction,
      processRow cfg fin2 fp p.1 p.2 =
        if p.1 = k then Option.none else processRow cfg fin fp p.1 p.2 := by
    intro p
    by_cases hk : p.1 = k
    · rw [if_pos hk]
      exact processRow_fin_err cfg fin2 fp p.1 p.2
        (fun t raw' ht => herr t raw' (ht.trans hk))
    · rw [if_neg hk]
      exact processRow_fin_congr cfg fin fin2 fp p.1 p.2
        (fun t raw' ht => hagree t raw' (fun hc => hk (ht ▸ hc)))
  unfold extract
  by_cases he : (parseExcelFile file).transactions.isEmpty = true
  · rw [if_pos he]
    rw [List.isEmpty_iff] at he
    rw [he]
    rfl
  · rw [if_neg he]
    unfold extractRows
    exact List.filterMap_congr (fun p _ => hpoint p)

/-- The classifier oracle for the C9 witness: behaves like `finOk` but
raises on any transaction whose source row index is 2. -/
def finErr2 : Finalize := fun t raw =>
  if t.metaRow = 2 then Except.error () else finOk t raw

/-- The three-row file for the C9 witness. -/
def c9File : LoadResult :=
  LoadResult.book
    { title := "transaksjonsliste"
      header := {}
      dataRows :=
        [{ dateCell := CellValue.date ⟨2025, 10, 24⟩,
           descriptionCell := CellValue.str "KAFFE", utCell := CellValue.num (PyDecimal.num 100 0) },
         { dateCell := CellValue.date ⟨2025, 10, 25⟩,
           descriptionCell := CellValue.str "BUTIKK", utCell := CellValue.num (PyDecimal.num 50 0) },
         { dateCell := CellValue.date ⟨2025, 10, 26⟩,
           descriptionCell := CellValue.str "REFUSJON", innCell := CellValue.num (PyDecimal.num 25 0) }] }

/-- Witness for C9: with the classifier raising exactly on row 2 of
the three-row file, `extract` still emits rows 1 and 3 unchanged. -/
theorem failure_isolation_witness :
    extract cfg0 finErr2 "f" c9File =
      (enumFrom 1 (parseExcelFile c9File).transactions).filterMap
        (fun p => if p.1 = 2 then Option.none else processRow cfg0 finOk "f" p.1 p.2) ∧
    (extract cfg0 finErr2 "f" c9File).map Transaction.narration = ["KAFFE", "REFUSJON"] ∧
    (extract cfg0 finOk "f" c9File).map Transaction.narration =
      ["KAFFE", "BUTIKK", "REFUSJON"] :=
  ⟨failure_isolation cfg0 finOk finErr2 "f" c9File 2
      (fun t raw ht => by simp only [finErr2, if_neg ht])
      (fun t raw ht => by simp only [finErr2, if_pos ht]),
   by decide, by decide⟩

end DnbNo
